import Mathlib

/-!
Verification development for the CLAI repository.

Shallow embedding of the core components:
* `resolve_path` — the sandbox path resolution of `FileSystemTools._resolve_path`
  (src/mcp_filesystem.py).  Paths are modelled as lists of POSIX segments
  (each segment a list of characters); `Path.resolve()` is modelled lexically
  (symlinks are outside the model).
* string template substitution of `Orchestrator.run_workflow`
  (src/orchestrator.py), with Python `str.replace` modelled on character lists.
* `BaseAgent.chat` history accumulation (src/agents/base.py).
* the workflow engine `Orchestrator.run_workflow` (src/orchestrator.py).
* `AgentFactory.create_by_provider` / `create_by_role` (src/agents/factory.py).
* the line matching of `FileSystemTools.grep` and the error swallowing of the
  list-returning filesystem operations (src/mcp_filesystem.py).

Provider calls, the real filesystem and `os.walk` are external collaborators;
they are modelled as explicit oracles (`Except`-valued function parameters).
-/

set_option autoImplicit false

namespace CLAI

/-! ## Path model (src/mcp_filesystem.py, `FileSystemTools._resolve_path`)

A filesystem path is an absolute, `/`-separated path, modelled as the list of
its segments; each segment is the list of its characters. -/

abbrev Seg := List Char

/-- Split a character list at every `/` separator (accumulator holds the
current segment reversed), mirroring POSIX path parsing in `pathlib`. -/
def splitSlashAux : List Char → List Char → List Seg
  | [], acc => [acc.reverse]
  | c :: rest, acc =>
    if c = '/' then acc.reverse :: splitSlashAux rest []
    else splitSlashAux rest (c :: acc)

/-- Parse a relative path string into segments.  `pathlib` collapses empty
segments (spurious slashes) and single-dot segments at parse time, but keeps
`..` segments. -/
def splitSegs (cs : List Char) : List Seg :=
  (splitSlashAux cs []).filter (fun s => !(s == []) && !(s == ['.']))

/-- `relative_path.lstrip("/").lstrip("\\")` from `_resolve_path`: first all
leading `/` characters are removed, then all leading backslashes. -/
def cleanPath (cs : List Char) : List Char :=
  (cs.dropWhile (fun c => c == '/')).dropWhile (fun c => c == '\\')

/-- Lexical `Path.resolve()` on an absolute base: a `..` segment removes the
last segment of the accumulated path (at the filesystem root it is a no-op),
any other segment is appended. -/
def resolveSegs (base : List Seg) (segs : List Seg) : List Seg :=
  segs.foldl (fun acc seg => if seg = ['.', '.'] then acc.dropLast else acc ++ [seg]) base

/-- The absolute location `(self.workspace_root / clean_path).resolve()` of
`_resolve_path`: clean the supplied path and join it onto the workspace root
(`pathlib` join: if the cleaned path still starts with `/` — possible only
after a leading backslash run — it replaces the root), then resolve. -/
def resolveFull (root : List Seg) (relative_path : String) : List Seg :=
  let clean := cleanPath relative_path.data
  if clean.head? = some '/' then resolveSegs [] (splitSegs clean)
  else resolveSegs root (splitSegs clean)

/-- `FileSystemTools._resolve_path`: resolve the supplied path against the
workspace root and require the result to be reachable from the workspace root
(`full_path.relative_to(self.workspace_root)`), else fail. -/
def resolve_path (root : List Seg) (relative_path : String) : Except String (List Seg) :=
  let full := resolveFull root relative_path
  if root.isPrefixOf full then .ok full
  else .error ("Path " ++ relative_path ++ " escapes workspace sandbox")

instance {ε α : Type} [DecidableEq ε] [DecidableEq α] : DecidableEq (Except ε α)
  | .ok a, .ok b =>
    if h : a = b then .isTrue (by rw [h]) else .isFalse (by intro hc; cases hc; exact h rfl)
  | .error a, .error b =>
    if h : a = b then .isTrue (by rw [h]) else .isFalse (by intro hc; cases hc; exact h rfl)
  | .ok a, .error b => .isFalse (by intro hc; cases hc)
  | .error a, .ok b => .isFalse (by intro hc; cases hc)

/-- A normalised segment: nonempty and neither `.` nor `..`.  The workspace
root is a resolved absolute path, so all its segments are normalised. -/
def normSeg (s : Seg) : Prop := s ≠ [] ∧ s ≠ ['.'] ∧ s ≠ ['.', '.']

instance (s : Seg) : Decidable (normSeg s) := by unfold normSeg; infer_instance

def validRoot (root : List Seg) : Prop := ∀ s ∈ root, normSeg s

instance (root : List Seg) : Decidable (validRoot root) := by
  unfold validRoot; infer_instance

/-- A path strictly inside another: a proper descendant. -/
def strictlyInside (root q : List Seg) : Prop := root <+: q ∧ root ≠ q

lemma splitSegs_props (cs : List Char) :
    ∀ s ∈ splitSegs cs, s ≠ [] ∧ s ≠ ['.'] := by
  intro s hs
  have h := List.of_mem_filter hs
  simp only [Bool.and_eq_true, Bool.not_eq_true', beq_eq_false_iff_ne] at h
  exact h

lemma resolveSegs_valid (segs : List Seg) (base : List Seg)
    (hbase : validRoot base) (hsegs : ∀ s ∈ segs, s ≠ [] ∧ s ≠ ['.']) :
    validRoot (resolveSegs base segs) := by
  induction segs generalizing base with
  | nil => exact hbase
  | cons seg rest ih =>
    simp only [resolveSegs, List.foldl_cons] at *
    by_cases hdd : seg = ['.', '.']
    · simp only [hdd, if_pos rfl]
      exact ih _ (fun s hs => hbase s (List.dropLast_subset _ hs))
        (fun s hs => hsegs s (List.mem_cons_of_mem _ hs))
    · simp only [if_neg hdd]
      refine ih _ ?_ (fun s hs => hsegs s (List.mem_cons_of_mem _ hs))
      intro s hs
      rcases List.mem_append.mp hs with h | h
      · exact hbase s h
      · have hone : s = seg := by simpa using h
        rcases hsegs seg (List.mem_cons_self _ _) with ⟨h1, h2⟩
        exact hone ▸ ⟨h1, h2, hone ▸ hdd⟩

lemma resolveFull_valid (root : List Seg) (p : String) (hroot : validRoot root) :
    validRoot (resolveFull root p) := by
  simp only [resolveFull]
  split
  · exact resolveSegs_valid _ _ (by intro s hs; cases hs) (splitSegs_props _)
  · exact resolveSegs_valid _ _ hroot (splitSegs_props _)

lemma resolve_path_ok_valid (root : List Seg) (p : String) (full : List Seg)
    (hroot : validRoot root) (h : resolve_path root p = .ok full) :
    root <+: full ∧ validRoot full := by
  simp only [resolve_path] at h
  split at h
  next hpre =>
    cases h
    exact ⟨ List.isPrefixOf_iff_prefix.mp hpre, resolveFull_valid root p hroot⟩
  next => cases h

lemma cleanPath_slash (cs : List Char) : cleanPath ('/' :: cs) = cleanPath cs := by
  simp [cleanPath, List.dropWhile]

lemma cleanPath_backslash (cs : List Char) (h : cs.head? ≠ some '/') :
    cleanPath ('\\' :: cs) = cleanPath cs := by
  have hdrop : cs.dropWhile (fun c => c == '/') = cs := by
    cases cs with
    | nil => rfl
    | cons c rest =>
      have hc : (c == '/') = false :=
        beq_eq_false_iff_ne.mpr (fun hc => h (by simp [hc]))
      simp [List.dropWhile, hc]
  simp [cleanPath, List.dropWhile, hdrop]

/-- Claim C1 (amended): for every workspace root (a resolved absolute path,
hence with normalised segments) and every supplied path `p`, `_resolve_path`
either fails with a path-escapes-sandbox error before any I/O, or returns a
location inside the workspace root — a descendant of the root or the root
itself (`a/..` resolves to the root itself, so "strictly inside" fails but
containment holds); the result is a fully normalised path (no residual `..`),
and a leading `/` root marker is stripped, so such a path is treated as
relative to the sandbox root; likewise a leading backslash when no `/`
follows.  (A leading backslash followed by `/` is the exception exhibited by
the counterexample: the remainder is interpreted as a real-filesystem
absolute path — but the first conjunct still applies to it, so even then the
operation either resolves inside the workspace root or fails.) -/
theorem c1_resolve_never_escapes (root : List Seg) (p : String) (hroot : validRoot root) :
    (∀ full, resolve_path root p = .ok full → root <+: full ∧ validRoot full)
    ∧ (∀ q : String, resolveFull root ("/" ++ q) = resolveFull root q)
    ∧ (∀ q : String, q.data.head? ≠ some '/' →
        resolveFull root ("\\" ++ q) = resolveFull root q) := by
  refine ⟨fun full h => resolve_path_ok_valid root p full hroot h, ?_, ?_⟩
  · intro q
    simp only [resolveFull]
    have hcl : cleanPath ("/" ++ q).data = cleanPath q.data := by
      have hdata : ("/" ++ q).data = '/' :: q.data := by
        simp [String.data_append]
      rw [hdata, cleanPath_slash]
    rw [hcl]
  · intro q hq
    simp only [resolveFull]
    have hcl : cleanPath ("\\" ++ q).data = cleanPath q.data := by
      have hdata : ("\\" ++ q).data = '\\' :: q.data := by
        simp [String.data_append]
      rw [hdata, cleanPath_backslash _ hq]
    rw [hcl]

/-- Witness for C1 (amended), at root `/ws` and path `../x`: the containment
hypothesis is discharged on a concrete root; the path escapes, so resolution
fails, and prepending `/` does not change the outcome. -/
theorem c1_witness :
    (∀ full, resolve_path ["ws".data] "../x" = .ok full →
      ["ws".data] <+: full ∧ validRoot full)
    ∧ (∀ q : String, resolveFull ["ws".data] ("/" ++ q) = resolveFull ["ws".data] q)
    ∧ (∀ q : String, q.data.head? ≠ some '/' →
        resolveFull ["ws".data] ("\\" ++ q) = resolveFull ["ws".data] q) :=
  c1_resolve_never_escapes ["ws".data] "../x" (by decide)

/-- Counterexample to C1 as stated, in two parts, both at workspace root
`/ws`.  First, the path `a/..` contains a `..` segment, its resolution
succeeds (no sandbox-escape error), yet the resulting location is the
workspace root itself — not *strictly* inside the workspace root.  Second,
the path `\/ws/x` begins with a root marker (a backslash), but it is NOT
treated as relative to the sandbox root: `lstrip` leaves the remainder
`/ws/x`, which the `pathlib` join absorbs as a real-filesystem absolute path,
so resolution yields `/ws/x` — whereas the sandbox-relative reading of the
remaining segments `ws/x` would be `/ws/ws/x`, a different location.  (The
location still lies inside the root, so the containment check passes and no
error is raised.) -/
theorem c1_counterexample :
    (resolve_path ["ws".data] "a/.." = .ok [("ws".data)]
      ∧ ¬ strictlyInside ["ws".data] [("ws".data)])
    ∧ (resolve_path ["ws".data] "\\/ws/x" = .ok ["ws".data, "x".data]
      ∧ resolveSegs ["ws".data] (splitSegs "ws/x".data)
          = ["ws".data, "ws".data, "x".data]
      ∧ (["ws".data, "x".data] : List Seg) ≠ ["ws".data, "ws".data, "x".data]) := by
  refine ⟨⟨by decide, fun h => h.2 rfl⟩, by decide, by decide, by decide⟩

/-! ## Template substitution (src/orchestrator.py, `Orchestrator.run_workflow`)

The prompt-assembly loop starts from the step instruction and runs
`for key, value in context.items(): prompt = prompt.replace("{key}", value)`
(the pattern is the f-string `f"{{{key}}}"`, i.e. the key wrapped in braces). -/

/-- Python `str.replace` on character lists: scan left to right, replace every
non-overlapping occurrence of `pat` by `rep`, and continue scanning after the
replaced text.  The fuel argument makes the recursion structural; it is
initialised to the length of the string and every step consumes at least one
character, so the fuel-exhausted branch is unreachable. -/
def replaceAllF (pat rep : List Char) : Nat → List Char → List Char
  | _, [] => []
  | 0, s => s
  | fuel + 1, c :: rest =>
    if pat ≠ [] ∧ pat.isPrefixOf (c :: rest) then
      rep ++ replaceAllF pat rep fuel ((c :: rest).drop pat.length)
    else
      c :: replaceAllF pat rep fuel rest

/-- Python `str.replace pat rep` on a string given as a character list. -/
def replaceAll (pat rep s : List Char) : List Char := replaceAllF pat rep s.length s

/-- The context-substitution loop of `run_workflow`.  A Python dict iterates
in insertion order, so the context is modelled as a key/value list. -/
def substContext (context : List (String × String)) (instruction : String) : String :=
  context.foldl
    (fun prompt kv =>
      String.mk (replaceAll ("\x7b" ++ kv.1 ++ "\x7d").data kv.2.data prompt.data))
    instruction

lemma replaceAllF_no_occurrence (pat rep : List Char) (fuel : Nat) (s : List Char)
    (h : ¬ pat <:+: s) : replaceAllF pat rep fuel s = s := by
  induction fuel generalizing s with
  | zero => cases s <;> rfl
  | succ fuel ih =>
    cases s with
    | nil => rfl
    | cons c rest =>
      simp only [replaceAllF]
      have hnp : ¬ (pat ≠ [] ∧ pat.isPrefixOf (c :: rest) = true) := by
        rintro ⟨_, hpre⟩
        exact h (List.IsPrefix.isInfix ( List.isPrefixOf_iff_prefix.mp hpre))
      rw [if_neg hnp, ih rest (fun hi => h (List.infix_cons hi))]

lemma replaceAll_no_occurrence (pat rep s : List Char) (h : ¬ pat <:+: s) :
    replaceAll pat rep s = s :=
  replaceAllF_no_occurrence pat rep s.length s h

lemma substContext_of_no_key (context : List (String × String)) (instruction : String)
    (h : ∀ kv ∈ context, ¬ ("\x7b" ++ kv.1 ++ "\x7d").data <:+: instruction.data) :
    substContext context instruction = instruction := by
  induction context with
  | nil => rfl
  | cons kv rest ih =>
    have hfirst :
        String.mk (replaceAll ("\x7b" ++ kv.1 ++ "\x7d").data kv.2.data instruction.data)
          = instruction := by
      rw [replaceAll_no_occurrence _ _ _ (h kv (List.mem_cons_self _ _))]
    simp only [substContext, List.foldl_cons] at *
    rw [hfirst]
    exact ih (fun kv2 h2 => h kv2 (List.mem_cons_of_mem _ h2))

/-- Claim C2 (amended): prompt assembly substitutes the keys sequentially in
context (insertion) order; each key is replaced by a literal left-to-right
find/replace of all occurrences of `\x7bkey\x7d`.  The pass for one key never
rescans its own substituted text, but a substituted value that contains
`\x7bother\x7d`-shaped text IS further substituted when `other` is a key
iterated later (insertion order matters: with context `a ↦ \x7bb\x7d, b ↦ Y`
the template `\x7ba\x7d` yields `Y`, while the reversed insertion order yields
`\x7bb\x7d`).  Context `requirement ↦ X` applied to
`Analyze \x7brequirement\x7d now` yields exactly `Analyze X now`, and an
instruction containing no key placeholder at all is left unchanged. -/
theorem c2_template_substitution :
    substContext [("requirement", "X")] "Analyze \x7brequirement\x7d now" = "Analyze X now"
    ∧ substContext [("a", "\x7bb\x7d"), ("b", "Y")] "\x7ba\x7d" = "Y"
    ∧ substContext [("b", "Y"), ("a", "\x7bb\x7d")] "\x7ba\x7d" = "\x7bb\x7d"
    ∧ (∀ context instruction,
        (∀ kv ∈ context, ¬ ("\x7b" ++ kv.1 ++ "\x7d").data <:+: instruction.data) →
        substContext context instruction = instruction) :=
  ⟨by decide, by decide, by decide, substContext_of_no_key⟩

/-- Witness for C2 (amended): the no-placeholder clause applied to a concrete
context and instruction. -/
theorem c2_witness : substContext [("key", "value")] "plain text" = "plain text" :=
  c2_template_substitution.2.2.2 [("key", "value")] "plain text" (by decide)

/-- Counterexample to C2 as stated: with context `a ↦ \x7bb\x7d, b ↦ Y` (in
that insertion order) and template `\x7ba\x7d`, the value substituted for `a`
itself contains the `\x7bb\x7d` placeholder, and the later iteration for key
`b` substitutes inside it: the assembled prompt is `Y`, not the claimed
untouched `\x7bb\x7d`. -/
theorem c2_counterexample :
    substContext [("a", "\x7bb\x7d"), ("b", "Y")] "\x7ba\x7d" = "Y"
    ∧ ("Y" : String) ≠ "\x7bb\x7d" := by
  constructor
  · decide
  · decide

/-! ## Agent chat (src/agents/base.py, `BaseAgent.chat`)

The provider request (`_send_request`, network, auth, parsing) is an external
collaborator, modelled as an oracle `send : List Message → Except String
String` returning the response content or a failure.  `chat` returns the call
outcome together with the new conversation history. -/

inductive MessageRole where
  | system
  | user
  | assistant
deriving DecidableEq, Repr

structure Message where
  role : MessageRole
  content : String
deriving DecidableEq, Repr

/-- The outgoing message list of `BaseAgent.chat`: the stored history when
`include_history` is true, then the new user message. -/
def buildMessages (history : List Message) (userMessage : String)
    (includeHistory : Bool) : List Message :=
  (if includeHistory then history else []) ++ [⟨.user, userMessage⟩]

/-- `BaseAgent.chat`: send the built message list; on success append exactly
the user message and an assistant message carrying the response content to the
history; on failure propagate the error and leave the history untouched. -/
def chat (send : List Message → Except String String) (history : List Message)
    (userMessage : String) (includeHistory : Bool) :
    Except String String × List Message :=
  match send (buildMessages history userMessage includeHistory) with
  | .error e => (.error e, history)
  | .ok content => (.ok content, history ++ [⟨.user, userMessage⟩, ⟨.assistant, content⟩])

/-- One successful `chat` call: the user input, the flag, and the content the
provider answers with (the provider succeeds on this call). -/
structure SuccCall where
  userMessage : String
  includeHistory : Bool
  respContent : String

def chatOkStep (history : List Message) (c : SuccCall) : List Message :=
  (chat (fun _ => .ok c.respContent) history c.userMessage c.includeHistory).2

/-- History after a sequence of successful `chat` calls starting from a freshly
cleared history. -/
def runChats (calls : List SuccCall) : List Message := calls.foldl chatOkStep []

/-- The two messages a successful call appends. -/
def turnOf (c : SuccCall) : List Message :=
  [⟨.user, c.userMessage⟩, ⟨.assistant, c.respContent⟩]

def historyOf (calls : List SuccCall) : List Message := (calls.map turnOf).flatten

/-- History alternates user/assistant pairs starting with a user message. -/
def alternatesUA : List Message → Bool
  | [] => true
  | ⟨.user, _⟩ :: ⟨.assistant, _⟩ :: rest => alternatesUA rest
  | _ => false

lemma chatOkStep_eq (history : List Message) (c : SuccCall) :
    chatOkStep history c = history ++ turnOf c := rfl

lemma foldl_chatOkStep (calls : List SuccCall) :
    ∀ history : List Message,
      calls.foldl chatOkStep history = history ++ historyOf calls := by
  induction calls with
  | nil => intro history; simp [historyOf]
  | cons c rest ih =>
    intro history
    simp only [List.foldl_cons, chatOkStep_eq, ih, historyOf, List.map_cons,
      List.flatten_cons, List.append_assoc]

lemma runChats_eq (calls : List SuccCall) : runChats calls = historyOf calls := by
  simpa using foldl_chatOkStep calls []

lemma historyOf_length (calls : List SuccCall) :
    (historyOf calls).length = 2 * calls.length := by
  induction calls with
  | nil => rfl
  | cons c rest ih =>
    simp only [historyOf, List.map_cons, List.flatten_cons] at *
    simp [turnOf, ih, List.length_append]
    omega

lemma historyOf_alternates (calls : List SuccCall) :
    alternatesUA (historyOf calls) = true := by
  induction calls with
  | nil => rfl
  | cons c rest ih =>
    simp only [historyOf, List.map_cons, List.flatten_cons] at *
    simpa [turnOf, alternatesUA] using ih

lemma historyOf_no_system (calls : List SuccCall) :
    ∀ m ∈ historyOf calls, m.role ≠ .system := by
  induction calls with
  | nil => intro m hm; cases hm
  | cons c rest ih =>
    intro m hm
    simp only [historyOf, List.map_cons, List.flatten_cons] at hm
    rcases List.mem_append.mp hm with h | h
    · have hcase : m = ⟨.user, c.userMessage⟩ ∨ m = ⟨.assistant, c.respContent⟩ := by
        simpa [turnOf] using h
      rcases hcase with h1 | h1 <;> simp [h1]
    · exact ih m h

/-- Claim C3: after any sequence of successful `chat` calls since the last
`clear_history`, the history has length exactly twice the number of calls,
alternates user/assistant starting with user, never contains a SYSTEM-role
message, and each successful call appends exactly one user message and one
assistant message whose content is the response content — regardless of the
`include_history` flag of each call (the flag does not occur in the appended
turn). -/
theorem c3_history_invariant (calls : List SuccCall) :
    (runChats calls).length = 2 * calls.length
    ∧ alternatesUA (runChats calls) = true
    ∧ (∀ m ∈ runChats calls, m.role ≠ .system)
    ∧ (∀ (pre : List SuccCall) (c : SuccCall),
        runChats (pre ++ [c]) = runChats pre
          ++ [⟨.user, c.userMessage⟩, ⟨.assistant, c.respContent⟩]) := by
  refine ⟨?_, ?_, ?_, ?_⟩
  · rw [runChats_eq]; exact historyOf_length calls
  · rw [runChats_eq]; exact historyOf_alternates calls
  · rw [runChats_eq]; exact historyOf_no_system calls
  · intro pre c
    rw [runChats_eq, runChats_eq, historyOf, List.map_append, List.flatten_append]
    rfl

/-- Claim C6: when the provider send fails, `chat` propagates exactly that
error, unmodified, and the history after the call is exactly the history
before it; moreover the outcome depends on the send oracle only through its
value on the single built message list — the provider is consulted exactly
once, so no retry can occur. -/
theorem c6_chat_failure_no_mutation :
    (∀ (send : List Message → Except String String) (history : List Message)
        (userMessage : String) (includeHistory : Bool) (e : String),
        send (buildMessages history userMessage includeHistory) = .error e →
        chat send history userMessage includeHistory = (.error e, history))
    ∧ (∀ (send1 send2 : List Message → Except String String) (history : List Message)
        (userMessage : String) (includeHistory : Bool),
        send1 (buildMessages history userMessage includeHistory)
          = send2 (buildMessages history userMessage includeHistory) →
        chat send1 history userMessage includeHistory
          = chat send2 history userMessage includeHistory) := by
  constructor
  · intro send history userMessage includeHistory e h
    simp [chat, h]
  · intro send1 send2 history userMessage includeHistory h
    simp [chat, h]

/-- Witness for C6: a provider failing with `network error` on a concrete
call leaves the (empty) history empty and surfaces that very error. -/
theorem c6_witness :
    chat (fun _ => .error "network error") [] "hi" true = (.error "network error", []) :=
  c6_chat_failure_no_mutation.1 _ [] "hi" true "network error" rfl

/-! ## Workflow engine (src/orchestrator.py, `Orchestrator.run_workflow`)

Agents are reached only through `Orchestrator.ask`, modelled as an oracle
`ask : Role → String → Except String String` returning the response content
(the `AgentResponse` is abstracted to its `content`, the only field the
engine reads).  Workflows and the per-run outputs are Python dicts iterated
in insertion order, modelled as key/value lists with first-match lookup
(keys are unique: step keys embed distinct indices). -/

/-- The `Role` enum of src/agents/factory.py. -/
inductive Role where
  | senior_dev
  | coder
  | coder_2
  | qa
  | ba
  | reviewer
deriving DecidableEq, Repr

/-- `role.value`, the string payload of each enum member. -/
def Role.value : Role → String
  | .senior_dev => "senior_dev"
  | .coder => "coder"
  | .coder_2 => "coder_2"
  | .qa => "qa"
  | .ba => "ba"
  | .reviewer => "reviewer"

/-- `WorkflowStep`: role, instruction template, dependencies, and the optional
transform callback (which receives the dict `\x7b"prompt": prompt, **context\x7d`,
modelled as its lookup function). -/
structure WorkflowStep where
  role : Role
  instruction : String
  depends_on : List String := []
  transform : Option ((String → Option String) → String) := none

inductive WorkflowStatus where
  | pending
  | running
  | completed
  | failed
deriving DecidableEq, Repr

/-- `WorkflowResult` (duration, wall-clock time, is outside the model; each
output `AgentResponse` is abstracted to its content). -/
structure WorkflowResult where
  status : WorkflowStatus
  steps_completed : Nat
  outputs : List (String × String) := []
  errors : List String := []
deriving DecidableEq, Repr

/-- The deterministic step key `f"step_{i}_{step.role.value}"`. -/
def stepKey (i : Nat) (role : Role) : String :=
  "step_" ++ toString i ++ "_" ++ role.value

/-- The dependency-context loop: start from the header, and for each
identifier in `depends_on` (in list order) that exists in the outputs
collected so far, append a labelled block with that prior response content. -/
def depContext (outputs : List (String × String)) (deps : List String) : String :=
  deps.foldl
    (fun acc dep =>
      match outputs.lookup dep with
      | some content => acc ++ "\n[" ++ dep ++ "]:\n" ++ content ++ "\n"
      | none => acc)
    "\n\n---\nPrevious outputs:\n"

/-- Prompt assembly for one step: substitute the context into the instruction,
append the dependency context when `depends_on` is nonempty (Python truthiness
of the list), then apply the transform if present. -/
def buildPrompt (context : List (String × String)) (outputs : List (String × String))
    (step : WorkflowStep) : String :=
  let prompt := substContext context step.instruction
  let prompt :=
    if step.depends_on.isEmpty then prompt
    else prompt ++ depContext outputs step.depends_on
  match step.transform with
  | some t =>
    t (fun k =>
        match context.lookup k with
        | some v => some v
        | none => if k = "prompt" then some prompt else none)
  | none => prompt

/-- The step loop of `run_workflow`: execute steps in order, recording each
response under its step key; on the first failure stop with status `failed`,
`steps_completed` = index of the failing step, the outputs collected so far,
and a single step-qualified error. -/
def runStepsAux (ask : Role → String → Except String String)
    (context : List (String × String)) :
    List WorkflowStep → Nat → List (String × String) → WorkflowResult
  | [], i, outputs => ⟨.completed, i, outputs, []⟩
  | step :: rest, i, outputs =>
    let name := stepKey i step.role
    match ask step.role (buildPrompt context outputs step) with
    | .error e => ⟨.failed, i, outputs, ["Step " ++ name ++ " failed: " ++ e]⟩
    | .ok resp => runStepsAux ask context rest (i + 1) (outputs ++ [(name, resp)])

/-- `Orchestrator.run_workflow`: fail immediately on an unknown workflow name,
otherwise run the registered steps from index 0 with empty outputs. -/
def run_workflow (workflows : List (String × List WorkflowStep))
    (ask : Role → String → Except String String)
    (workflow_name : String) (context : List (String × String)) : WorkflowResult :=
  match workflows.lookup workflow_name with
  | none => ⟨.failed, 0, [], ["Unknown workflow: " ++ workflow_name]⟩
  | some steps => runStepsAux ask context steps 0 []

/-- Claim C5: for every unregistered workflow name and any context,
`run_workflow` returns status `failed`, zero steps completed, empty outputs
and exactly one error entry — and the result does not depend on the agent
oracle at all (no agent is invoked). -/
theorem c5_unknown_workflow (workflows : List (String × List WorkflowStep))
    (ask : Role → String → Except String String) (name : String)
    (context : List (String × String)) (h : workflows.lookup name = none) :
    run_workflow workflows ask name context
      = ⟨.failed, 0, [], ["Unknown workflow: " ++ name]⟩
    ∧ (∀ ask2, run_workflow workflows ask name context
        = run_workflow workflows ask2 name context) := by
  constructor
  · simp [run_workflow, h]
  · intro ask2
    simp [run_workflow, h]

/-- Witness for C5: the empty registry does not know workflow `nope`. -/
theorem c5_witness :
    run_workflow [] (fun _ _ => .ok "unused") "nope" []
      = ⟨.failed, 0, [], ["Unknown workflow: nope"]⟩ :=
  (c5_unknown_workflow [] (fun _ _ => .ok "unused") "nope" [] rfl).1

lemma runStepsAux_append (ask : Role → String → Except String String)
    (context : List (String × String)) (pre : List WorkflowStep) :
    ∀ (rest : List WorkflowStep) (i : Nat) (outs0 : List (String × String))
      (j : Nat) (outs1 : List (String × String)),
      runStepsAux ask context pre i outs0 = ⟨.completed, j, outs1, []⟩ →
      runStepsAux ask context (pre ++ rest) i outs0
        = runStepsAux ask context rest j outs1 := by
  induction pre with
  | nil =>
    intro rest i outs0 j outs1 h
    simp only [runStepsAux, WorkflowResult.mk.injEq] at h
    rcases h with ⟨_, hj, houts, _⟩
    rw [List.nil_append, hj, houts]
  | cons step pre ih =>
    intro rest i outs0 j outs1 h
    simp only [runStepsAux, List.cons_append] at h ⊢
    cases hask : ask step.role (buildPrompt context outs0 step) with
    | error e =>
      rw [hask] at h
      simp at h
    | ok resp =>
      rw [hask] at h
      exact ih rest (i + 1) (outs0 ++ [(stepKey i step.role, resp)]) j outs1 h

/-- Claim C4: when a registered workflow's steps split as
`pre ++ failing :: post`, the prefix `pre` runs to completion producing
outputs `outs`, and the agent fails on the assembled prompt of the failing
step (at index `pre.length`), then `run_workflow` returns status `failed`,
`steps_completed` equal to the number of prior successful steps, outputs
exactly `outs`, and an errors list with the single entry naming the failed
step key and the underlying failure text.  The steps `post` after the failure
are arbitrary and do not occur in the result: no later step is executed. -/
theorem c4_fail_fast (workflows : List (String × List WorkflowStep))
    (ask : Role → String → Except String String) (name : String)
    (context : List (String × String)) (pre : List WorkflowStep)
    (failStep : WorkflowStep) (post : List WorkflowStep)
    (outs : List (String × String)) (e : String)
    (hlookup : workflows.lookup name = some (pre ++ failStep :: post))
    (hpre : runStepsAux ask context pre 0 [] = ⟨.completed, pre.length, outs, []⟩)
    (hfail : ask failStep.role (buildPrompt context outs failStep) = .error e) :
    run_workflow workflows ask name context
      = ⟨.failed, pre.length, outs,
         ["Step " ++ stepKey pre.length failStep.role ++ " failed: " ++ e]⟩ := by
  simp only [run_workflow, hlookup]
  rw [runStepsAux_append ask context pre (failStep :: post) 0 [] pre.length outs hpre]
  simp only [runStepsAux, hfail]

def askW : Role → String → Except String String := fun r _ =>
  match r with
  | .senior_dev => .error "boom"
  | _ => .ok "BA output"

/-- Witness for C4: a concrete 3-step workflow whose second step fails; step 0
succeeds, step 2 is never reached. -/
theorem c4_witness :
    run_workflow
      [("wf",
        [⟨Role.ba, "Analyze \x7brequirement\x7d", [], none⟩,
         ⟨Role.senior_dev, "Design it", ["step_0_ba"], none⟩,
         ⟨Role.coder, "Code it", ["step_1_senior_dev"], none⟩])]
      askW "wf" [("requirement", "X")]
      = ⟨.failed, 1, [("step_0_ba", "BA output")],
         ["Step step_1_senior_dev failed: boom"]⟩ :=
  c4_fail_fast _ askW "wf" [("requirement", "X")]
    [⟨Role.ba, "Analyze \x7brequirement\x7d", [], none⟩]
    ⟨Role.senior_dev, "Design it", ["step_0_ba"], none⟩
    [⟨Role.coder, "Code it", ["step_1_senior_dev"], none⟩]
    [("step_0_ba", "BA output")] "boom" rfl (by rfl) rfl

/-- The dependency context as the claim words it: one labelled block per
identifier of `depends_on` that exists in the outputs, concatenated in
`depends_on` list order, after the fixed header. -/
def depBlocksSpec (outputs : List (String × String)) : List String → String
  | [] => ""
  | dep :: rest =>
    (match outputs.lookup dep with
     | some content => "\n[" ++ dep ++ "]:\n" ++ content ++ "\n"
     | none => "") ++ depBlocksSpec outputs rest

lemma depContext_go (outputs : List (String × String)) (deps : List String) :
    ∀ acc : String,
      deps.foldl
        (fun acc dep =>
          match outputs.lookup dep with
          | some content => acc ++ "\n[" ++ dep ++ "]:\n" ++ content ++ "\n"
          | none => acc) acc
      = acc ++ depBlocksSpec outputs deps := by
  induction deps with
  | nil => intro acc; simp [depBlocksSpec]
  | cons dep rest ih =>
    intro acc
    simp only [List.foldl_cons, depBlocksSpec]
    cases outputs.lookup dep with
    | none => simp [ih]
    | some content =>
      rw [ih]
      simp [String.append_assoc]

lemma depBlocksSpec_congr (outputs1 outputs2 : List (String × String)) :
    ∀ deps : List String,
      (∀ d ∈ deps, outputs1.lookup d = outputs2.lookup d) →
      depBlocksSpec outputs1 deps = depBlocksSpec outputs2 deps := by
  intro deps
  induction deps with
  | nil => intro _; rfl
  | cons dep rest ih =>
    intro h
    simp only [depBlocksSpec, h dep (List.mem_cons_self _ _),
      ih (fun d hd => h d (List.mem_cons_of_mem _ hd))]

lemma runStepsAux_keys (ask : Role → String → Except String String)
    (context : List (String × String)) (steps : List WorkflowStep) :
    ∀ (i : Nat) (acc : List (String × String)) (j : Nat)
      (outs : List (String × String)),
      runStepsAux ask context steps i acc = ⟨.completed, j, outs, []⟩ →
      outs.map Prod.fst
        = acc.map Prod.fst ++ (steps.enumFrom i).map (fun p => stepKey p.1 p.2.role) := by
  induction steps with
  | nil =>
    intro i acc j outs h
    simp only [runStepsAux, WorkflowResult.mk.injEq] at h
    rcases h with ⟨_, _, houts, _⟩
    simp [houts.symm]
  | cons step rest ih =>
    intro i acc j outs h
    simp only [runStepsAux] at h
    cases hask : ask step.role (buildPrompt context acc step) with
    | error e => rw [hask] at h; simp at h
    | ok resp =>
      rw [hask] at h
      have := ih (i + 1) (acc ++ [(stepKey i step.role, resp)]) j outs h
      simpa [List.enumFrom, List.map_append] using this

/-- Claim C8: the dependency context appended to an assembled prompt is the
fixed header followed by exactly one labelled block per identifier of
`depends_on` present in the outputs collected so far, in `depends_on` list
order; it depends on the outputs map only through lookup, hence not on the
insertion order of the map; and on a completed run each response is recorded under
the key `step_<index>_<role>` derived from its ordinal position and role, in
execution order. -/
theorem c8_dependency_blocks :
    (∀ (outputs : List (String × String)) (deps : List String),
        depContext outputs deps
          = "\n\n---\nPrevious outputs:\n" ++ depBlocksSpec outputs deps)
    ∧ (∀ (outputs1 outputs2 : List (String × String)) (deps : List String),
        (∀ d ∈ deps, outputs1.lookup d = outputs2.lookup d) →
        depContext outputs1 deps = depContext outputs2 deps)
    ∧ (∀ (ask : Role → String → Except String String)
        (context : List (String × String)) (steps : List WorkflowStep)
        (j : Nat) (outs : List (String × String)),
        runStepsAux ask context steps 0 [] = ⟨.completed, j, outs, []⟩ →
        outs.map Prod.fst = (steps.enumFrom 0).map (fun p => stepKey p.1 p.2.role)) := by
  refine ⟨?_, ?_, ?_⟩
  · intro outputs deps
    exact depContext_go outputs deps _
  · intro outputs1 outputs2 deps h
    unfold depContext
    rw [depContext_go, depContext_go, depBlocksSpec_congr outputs1 outputs2 deps h]
  · intro ask context steps j outs h
    simpa using runStepsAux_keys ask context steps 0 [] j outs h

/-- Witness for C8: the dependency context over a two-entry outputs map is
insertion-order independent, on concrete data. -/
theorem c8_witness :
    depContext [("step_0_ba", "A"), ("step_1_senior_dev", "B")]
        ["step_0_ba", "step_1_senior_dev"]
      = depContext [("step_1_senior_dev", "B"), ("step_0_ba", "A")]
        ["step_0_ba", "step_1_senior_dev"] :=
  c8_dependency_blocks.2.1 _ _ _ (by decide)

/-! ## Agent factory (src/agents/factory.py)

`create_by_provider` selects the agent class from the provider; the claims
concern only the configuration selection, so the built agent is modelled by
its configuration record.  Temperatures are Python floats used purely as
opaque configuration values (no arithmetic), modelled as rationals. -/

structure Settings where
  default_max_tokens : Nat
  default_temperature : ℚ

/-- `RoleConfig` of src/roles/base.py. -/
structure RoleConfig where
  name : String
  description : String
  system_prompt : String
  max_tokens : Nat := 4096
  temperature : ℚ := 7/10
  capabilities : List String := []

/-- The configuration an agent is constructed with (`BaseAgent.__init__`). -/
structure AgentCfg where
  model : String
  system_prompt : String
  max_tokens : Nat
  temperature : ℚ
deriving DecidableEq, Repr

/-- Python `x or d` for `x : Optional[str]`: `None` and the empty string are
falsy and fall through to the default. -/
def pyOrStr (x : Option String) (d : String) : String :=
  match x with
  | some s => if s = "" then d else s
  | none => d

/-- Python `x or d` for `x : Optional[int]`: `None` and `0` are falsy and fall
through to the default. -/
def pyOrNat (x : Option Nat) (d : Nat) : Nat :=
  match x with
  | some n => if n = 0 then d else n
  | none => d

/-- `AgentFactory.create_by_provider`: `max_tokens or settings.default_max_tokens`
and `temperature if temperature is not None else settings.default_temperature`. -/
def create_by_provider (settings : Settings) (model : String) (system_prompt : String)
    (max_tokens : Option Nat) (temperature : Option ℚ) : AgentCfg :=
  { model := model
    system_prompt := system_prompt
    max_tokens := pyOrNat max_tokens settings.default_max_tokens
    temperature := temperature.getD settings.default_temperature }

/-- `AgentFactory.create_by_role`: overrides are merged with the RoleConfig
defaults (`system_prompt or role_config.system_prompt`,
`max_tokens or role_config.max_tokens`,
`temperature if temperature is not None else role_config.temperature`) and the
merged values are passed to `create_by_provider`. -/
def create_by_role (settings : Settings) (role_config : RoleConfig) (model : String)
    (system_prompt : Option String) (max_tokens : Option Nat)
    (temperature : Option ℚ) : AgentCfg :=
  create_by_provider settings model
    (pyOrStr system_prompt role_config.system_prompt)
    (some (pyOrNat max_tokens role_config.max_tokens))
    (some (temperature.getD role_config.temperature))

/-- Claim C7 (amended): a supplied system-prompt override takes precedence
when it is a nonempty string, a supplied max-tokens override when it is
nonzero (Python `or` treats `""` and `0` as unset), and a supplied temperature
override always (it is compared against `None`, so `0` is honoured); absent
overrides fall back to the RoleConfig defaults (for max tokens, provided the
RoleConfig default is itself nonzero), and in `create_by_provider` absent
max-tokens/temperature fall back to the process-wide defaults. -/
theorem c7_override_precedence :
    (∀ (settings : Settings) (cfg : RoleConfig) (model s : String)
        (mt : Option Nat) (tp : Option ℚ), s ≠ "" →
        (create_by_role settings cfg model (some s) mt tp).system_prompt = s)
    ∧ (∀ (settings : Settings) (cfg : RoleConfig) (model : String)
        (mt : Option Nat) (tp : Option ℚ),
        (create_by_role settings cfg model none mt tp).system_prompt
          = cfg.system_prompt)
    ∧ (∀ (settings : Settings) (cfg : RoleConfig) (model : String)
        (sp : Option String) (tp : Option ℚ) (n : Nat), n ≠ 0 →
        (create_by_role settings cfg model sp (some n) tp).max_tokens = n)
    ∧ (∀ (settings : Settings) (cfg : RoleConfig) (model : String)
        (sp : Option String) (tp : Option ℚ), cfg.max_tokens ≠ 0 →
        (create_by_role settings cfg model sp none tp).max_tokens = cfg.max_tokens)
    ∧ (∀ (settings : Settings) (cfg : RoleConfig) (model : String)
        (sp : Option String) (mt : Option Nat) (t : ℚ),
        (create_by_role settings cfg model sp mt (some t)).temperature = t)
    ∧ (∀ (settings : Settings) (cfg : RoleConfig) (model : String)
        (sp : Option String) (mt : Option Nat),
        (create_by_role settings cfg model sp mt none).temperature = cfg.temperature)
    ∧ (∀ (settings : Settings) (model sp : String),
        (create_by_provider settings model sp none none).max_tokens
            = settings.default_max_tokens
        ∧ (create_by_provider settings model sp none none).temperature
            = settings.default_temperature) := by
  refine ⟨?_, ?_, ?_, ?_, ?_, ?_, ?_⟩
  · intro settings cfg model s mt tp h
    simp [create_by_role, create_by_provider, pyOrStr, h]
  · intro settings cfg model mt tp
    simp [create_by_role, create_by_provider, pyOrStr]
  · intro settings cfg model sp tp n h
    simp [create_by_role, create_by_provider, pyOrNat, h]
  · intro settings cfg model sp tp h
    simp [create_by_role, create_by_provider, pyOrNat, h]
  · intro settings cfg model sp mt t
    simp [create_by_role, create_by_provider]
  · intro settings cfg model sp mt
    simp [create_by_role, create_by_provider]
  · intro settings model sp
    constructor <;> simp [create_by_provider, pyOrNat]

def settingsW : Settings := ⟨4096, 7/10⟩

def roleConfigW : RoleConfig :=
  ⟨"Business Analyst", "Requirements analysis", "You are a business analyst.",
   2048, 3/10, []⟩

/-- Witness for C7 (amended): a nonempty supplied system prompt wins over the
RoleConfig default on concrete data. -/
theorem c7_witness :
    (create_by_role settingsW roleConfigW "gemini-pro" (some "custom prompt")
        none none).system_prompt = "custom prompt" :=
  c7_override_precedence.1 settingsW roleConfigW "gemini-pro" "custom prompt"
    none none (by decide)

/-- Counterexample to C7 as stated: the supplied overrides `system_prompt=""`
and `max_tokens=0` are not honoured — Python `or` treats them as falsy, so the
RoleConfig defaults are used instead of the supplied values. -/
theorem c7_counterexample :
    (create_by_role settingsW roleConfigW "gemini-pro" (some "") none none).system_prompt
        ≠ ""
    ∧ (create_by_role settingsW roleConfigW "gemini-pro" none (some 0) none).max_tokens
        ≠ 0 := by
  constructor
  · decide
  · decide

/-! ## Grep line matching (src/mcp_filesystem.py, `FileSystemTools.grep`)

The per-line test of `grep` is `search_term.lower() in line.lower()`.
Python `str.lower` is modelled by ASCII lowercasing (`Char.toLower`), on which
the two agree for ASCII text; `in` is contiguous-substring containment. -/

/-- `s.lower()` as a character list (ASCII lowercasing). -/
def lowerStr (s : String) : List Char := s.data.map Char.toLower

/-- The grep line test `search_term.lower() in line.lower()`. -/
def grepLineMatch (search_term line : String) : Bool :=
  decide (lowerStr search_term <:+: lowerStr line)

/-- Python `line.strip()`: remove leading and trailing whitespace. -/
def stripStr (s : String) : String :=
  String.mk (((s.data.dropWhile Char.isWhitespace).reverse.dropWhile
    Char.isWhitespace).reverse)

/-- The per-file loop of `grep`: for each line (`enumerate(f, 1)`), if the
lowered search term occurs in the lowered line, report
`f"{rel_path}:{line_num}:{line.strip()}"`. -/
def grepFile (search_term rel_path : String) (lines : List String) : List String :=
  lines.enum.filterMap fun p =>
    if grepLineMatch search_term p.2 then
      some (rel_path ++ ":" ++ toString (p.1 + 1) ++ ":" ++ stripStr p.2)
    else none

lemma filterMap_if {α β : Type} (p : α → Bool) (f : α → β) (l : List α) :
    (l.filterMap fun x => if p x then some (f x) else none)
      = (l.filter p).map f := by
  induction l with
  | nil => rfl
  | cons x rest ih =>
    by_cases h : p x
    · simp [List.filterMap_cons, List.filter_cons, h, ih]
    · simp [List.filterMap_cons, List.filter_cons, h, ih]

/-- Claim C9: a line is reported by grep exactly when the lowercased search
term occurs as a contiguous substring of the lowercased line — the reported
entries are precisely the matching lines in order, formatted as
`rel:lineNumber:strippedLine` with 1-based numbering.  The matching is
case-insensitive (undocumented in the spec): on concrete data, term `FOO`
matches `a Foo b` and `FOOD`, and `foo` does not match `bar`. -/
theorem c9_grep_case_insensitive :
    (∀ term line, grepLineMatch term line = true ↔ lowerStr term <:+: lowerStr line)
    ∧ (∀ term rel lines,
        grepFile term rel lines
          = (lines.enum.filter fun p => grepLineMatch term p.2).map
              (fun p => rel ++ ":" ++ toString (p.1 + 1) ++ ":" ++ stripStr p.2))
    ∧ grepFile "FOO" "notes.txt" ["a Foo b", "bar", "FOOD"]
        = ["notes.txt:1:a Foo b", "notes.txt:3:FOOD"]
    ∧ grepLineMatch "foo" "bar" = false := by
  refine ⟨?_, ?_, ?_, ?_⟩
  · intro term line
    exact decide_eq_true_iff
  · intro term rel lines
    exact filterMap_if _ _ _
  · decide
  · decide

/-! ## Error swallowing in the list-returning operations
(src/mcp_filesystem.py, `list_directory`, `search_files`, `grep`)

Each of these wraps its whole body in `try ... except Exception: return []`,
so a sandbox escape raised by `_resolve_path`, or any later internal error,
yields an empty list.  The `OperationResult`-returning operations
(e.g. `read_file`) instead catch the exception and return a failure result
carrying the message.  The actual directory I/O (`iterdir`, `os.walk`,
pattern filtering) is an external effect, modelled as an `Except`-valued
oracle consulted after path resolution. -/

structure OperationResult where
  success : Bool
  message : String
  data : Option String := none
deriving DecidableEq, Repr

structure FileInfo where
  path : String
  name : String
  is_dir : Bool
  size : Nat := 0
deriving DecidableEq, Repr

/-- `FileSystemTools.read_file`: failures (sandbox escape, missing file,
decode errors — the latter two via the oracle) become a failure
`OperationResult` carrying the error message. -/
def read_file (root : List Seg) (fsRead : List Seg → Except String String)
    (file_path : String) : OperationResult :=
  match resolve_path root file_path with
  | .error e => ⟨false, e, none⟩
  | .ok full =>
    match fsRead full with
    | .error e => ⟨false, e, none⟩
    | .ok content =>
      ⟨true, "Read " ++ toString content.length ++ " bytes from " ++ file_path,
       some content⟩

/-- `FileSystemTools.list_directory`: any failure yields `[]`. -/
def list_directory (root : List Seg)
    (fsList : List Seg → Except String (List FileInfo))
    (dir_path : String) : List FileInfo :=
  match resolve_path root dir_path with
  | .error _ => []
  | .ok full =>
    match fsList full with
    | .error _ => []
    | .ok items => items

/-- `FileSystemTools.search_files`: any failure yields `[]` (the walk,
hidden-directory skipping, `fnmatch` filtering and sorting are the oracle). -/
def search_files (root : List Seg)
    (fsSearch : String → List Seg → Except String (List String))
    (pattern : String) (dir_path : String) : List String :=
  match resolve_path root dir_path with
  | .error _ => []
  | .ok full =>
    match fsSearch pattern full with
    | .error _ => []
    | .ok found => found

/-- `FileSystemTools.grep`: any failure yields `[]`; on success the walk
(restricted by `file_pattern`) supplies `(rel_path, lines)` pairs and the
matches of every file are concatenated in walk order. -/
def grep (root : List Seg)
    (fsWalk : String → List Seg → Except String (List (String × List String)))
    (search_term : String) (dir_path : String) (file_pattern : String) : List String :=
  match resolve_path root dir_path with
  | .error _ => []
  | .ok full =>
    match fsWalk file_pattern full with
    | .error _ => []
    | .ok files => files.foldl (fun acc f => acc ++ grepFile search_term f.1 f.2) []

/-- Claim C10: when the path escapes the sandbox, the list-returning
operations `list_directory`, `search_files` and `grep` return an empty list —
the violation is silently swallowed, and likewise for any internal error of
the underlying directory I/O — whereas the `OperationResult`-returning
`read_file` surfaces the sandbox-escape message as a failure result. -/
theorem c10_list_ops_swallow_errors :
    (∀ (root : List Seg) (fsList : List Seg → Except String (List FileInfo))
        (fsSearch : String → List Seg → Except String (List String))
        (fsWalk : String → List Seg → Except String (List (String × List String)))
        (fsRead : List Seg → Except String String)
        (dir pattern term fpat e : String),
        resolve_path root dir = .error e →
        list_directory root fsList dir = []
        ∧ search_files root fsSearch pattern dir = []
        ∧ grep root fsWalk term dir fpat = []
        ∧ read_file root fsRead dir = ⟨false, e, none⟩)
    ∧ (∀ (root : List Seg) (fsList : List Seg → Except String (List FileInfo))
        (fsSearch : String → List Seg → Except String (List String))
        (fsWalk : String → List Seg → Except String (List (String × List String)))
        (dir pattern term fpat : String) (full : List Seg) (er1 er2 er3 : String),
        resolve_path root dir = .ok full →
        fsList full = .error er1 →
        fsSearch pattern full = .error er2 →
        fsWalk fpat full = .error er3 →
        list_directory root fsList dir = []
        ∧ search_files root fsSearch pattern dir = []
        ∧ grep root fsWalk term dir fpat = []) := by
  constructor
  · intro root fsList fsSearch fsWalk fsRead dir pattern term fpat e h
    refine ⟨?_, ?_, ?_, ?_⟩ <;> simp [list_directory, search_files, grep, read_file, h]
  · intro root fsList fsSearch fsWalk dir pattern term fpat full er1 er2 er3 h h1 h2 h3
    refine ⟨?_, ?_, ?_⟩ <;>
      simp [list_directory, search_files, grep, h, h1, h2, h3]

/-- Witness for C10: the escaping path `..` under root `/ws` yields empty
lists from the three list-returning operations and a failure result carrying
the escape message from `read_file`, on concrete oracles. -/
theorem c10_witness :
    list_directory ["ws".data] (fun _ => .ok [⟨"a", "a", false, 1⟩]) ".." = []
    ∧ search_files ["ws".data] (fun _ _ => .ok ["a.py"]) "*.py" ".." = []
    ∧ grep ["ws".data] (fun _ _ => .ok [("f.txt", ["line"])]) "term" ".." "*" = []
    ∧ read_file ["ws".data] (fun _ => .ok "content") ".."
        = ⟨false, "Path .. escapes workspace sandbox", none⟩ :=
  c10_list_ops_swallow_errors.1 ["ws".data] (fun _ => .ok [⟨"a", "a", false, 1⟩])
    (fun _ _ => .ok ["a.py"]) (fun _ _ => .ok [("f.txt", ["line"])])
    (fun _ => .ok "content") ".." "*.py" "term" "*"
    "Path .. escapes workspace sandbox" rfl

end CLAI
